import Mathlib

/-!
Formal model of the prompt-to-video repository core, shallowly embedded in Lean.

The embedding covers:
* the AI Director output validation and normalization
  (src/src/director/parser.ts: validateDirection, normalizeDirection, parseDirection,
   and the ValidationInput that src/src/director/index.ts refine builds);
* the VideoJob durable object orchestrator
  (src/src/durable-objects/VideoJob.ts: generateImages, alarm, compileVideo,
   pollRenderCompletion, updateProgress);
* the job-status route of the worker router (handleRequest, GET /api/jobs/id).

Modelling conventions:
* JavaScript numbers are modelled as rationals (the concrete values the claims
  exercise are exactly representable and all arithmetic on them is exact);
  Math.round x is the floor of x + 1/2, as in JavaScript for non-negative x.
* JavaScript strings are Lean String values; String.split on the whitespace
  regex is modelled by its length only (whitespace runs plus one, which counts
  the empty edge pieces JavaScript produces for leading or trailing whitespace).
* Dynamically typed fields of the raw LLM output are modelled as Option-typed
  fields: a missing field is none; JavaScript truthiness tests reject none and
  the empty string.
* External services (fal.ai image and video endpoints, Creatomate) are oracles
  passed in as functions; a thrown provider error is an Except.error value.
* Durable-object storage writes are modelled by threading the state value; the
  in-memory pollAttempts counter is threaded explicitly.
-/

namespace PromptToVideo

/-! ## JavaScript string and number primitives -/

def isWs (c : Char) : Bool := c.isWhitespace

/-- Number of maximal whitespace runs, tracking whether we are inside a run. -/
def wsRunsAux : Bool → List Char → Nat
  | _, [] => 0
  | b, c :: rest =>
    if isWs c then (if b then 0 else 1) + wsRunsAux true rest
    else wsRunsAux false rest

def wsRuns (l : List Char) : Nat := wsRunsAux false l

/-- Length of s.split on the whitespace regex in JavaScript: one more than the
number of maximal whitespace runs; leading or trailing whitespace contributes
empty edge pieces to the resulting array, which this count includes. -/
def splitWsLength (s : String) : Nat := wsRuns s.data + 1

/-- State helper for run-count lemmas: whether the last character of the list
is whitespace (b when the list is empty). -/
def lastWsState : Bool → List Char → Bool
  | b, [] => b
  | _, c :: rest => lastWsState (isWs c) rest

/-- Whether the first character of the list is whitespace. -/
def firstWs : List Char → Bool
  | [] => false
  | c :: _ => isWs c

def trimLeftWs (l : List Char) : List Char := l.dropWhile isWs

def trimRightWs (l : List Char) : List Char := (l.reverse.dropWhile isWs).reverse

/-- JavaScript String.prototype.trim. -/
def jsTrim (s : String) : String := String.mk (trimRightWs (trimLeftWs s.data))

/-- JavaScript Math.round: floor of x + 1/2 (halves round up).  Stated with
the computable Rat.floor; jsRound_eq_floor bridges to the Mathlib floor. -/
def jsRound (q : ℚ) : ℤ := (q + 1/2).floor

/-- Math.round (q * 10) / 10 — round to one decimal place. -/
def round10 (q : ℚ) : ℚ := (jsRound (q * 10) : ℚ) / 10

/-- JavaScript truthiness of an optional string: none and the empty string are
falsy. -/
def truthy : Option String → Bool
  | none => false
  | some s => !s.isEmpty

/-- The value of o when truthy, otherwise the default d (JavaScript o or d). -/
def orDefault (o : Option String) (d : String) : String :=
  match o with
  | none => d
  | some s => if s.isEmpty then d else s

/-! ## AI Director data model (src/src/types and src/src/director) -/

def validCameraMoves : List String :=
  ["static", "push_in", "pull_out", "pan_left", "pan_right", "tilt_up",
   "tilt_down", "crane_up", "crane_down", "dolly_left", "dolly_right"]

def validTransitions : List String :=
  ["cut", "crossfade", "fade_black", "fade_white", "wipe_left", "wipe_right"]

structure DirectedShot where
  id : Int
  duration : ℚ
  startPrompt : String
  endPrompt : String
  motionPrompt : String
  cameraMove : String
  lighting : String
  colorPalette : Option String
  transitionIn : Option String
  transitionOut : Option String
  deriving DecidableEq

structure DirectedScene where
  id : Int
  name : String
  description : String
  mood : String
  shots : List DirectedShot
  deriving DecidableEq

structure VideoDirection where
  title : String
  narrative : String
  totalDuration : ℚ
  scenes : List DirectedScene
  deriving DecidableEq

/-- Raw (untyped) LLM output shot: every field may be absent. -/
structure RawShot where
  id : Option Int
  duration : Option ℚ
  startPrompt : Option String
  endPrompt : Option String
  motionPrompt : Option String
  cameraMove : Option String
  lighting : Option String
  colorPalette : Option String
  transitionIn : Option String
  transitionOut : Option String
  deriving DecidableEq

structure RawScene where
  id : Option Int
  name : Option String
  description : Option String
  mood : Option String
  shots : Option (List RawShot)
  deriving DecidableEq

structure RawDirection where
  title : Option String
  narrative : Option String
  totalDuration : Option ℚ
  scenes : Option (List RawScene)
  deriving DecidableEq

structure ValidationError where
  message : String
  field : Option String
  sceneId : Option Int
  shotId : Option Int
  deriving DecidableEq

structure ValidationInput where
  targetDuration : ℚ
  aspectRatio : String
  maxScenes : Option Nat
  maxShotsPerScene : Option Nat
  deriving DecidableEq

/-- A required string field: rejects a missing field and (by JavaScript
truthiness) the empty string. -/
def reqStr : Option String → Option String
  | none => none
  | some s => if s.isEmpty then none else some s

/-- The JavaScript guard input.cap && length > input.cap: a missing cap and the
falsy cap 0 disable the check. -/
def capExceeded (cap : Option Nat) (n : Nat) : Bool :=
  match cap with
  | none => false
  | some m => m != 0 && decide (n > m)

/-- Validation of one shot, mirroring the per-shot checks of validateDirection
in source order: id, duration window, prompt presence, the 20-piece minimum for
startPrompt and endPrompt (there is no such check for motionPrompt in the
source), camera move membership, lighting, optional transitionOut membership. -/
def validateShot (sceneId : Int) (expectedId : Int) (s : RawShot) :
    Except ValidationError DirectedShot :=
  if s.id ≠ some expectedId then
    .error ⟨"Shot ID mismatch", some "id", some sceneId, s.id⟩
  else
    match s.duration with
    | none => .error ⟨"Shot duration must be 5-10 seconds", some "duration", some sceneId, s.id⟩
    | some d =>
      if d < 5 ∨ d > 10 then
        .error ⟨"Shot duration must be 5-10 seconds", some "duration", some sceneId, s.id⟩
      else
        match reqStr s.startPrompt with
        | none => .error ⟨"Missing or invalid startPrompt", some "startPrompt", some sceneId, s.id⟩
        | some sp =>
          match reqStr s.endPrompt with
          | none => .error ⟨"Missing or invalid endPrompt", some "endPrompt", some sceneId, s.id⟩
          | some ep =>
            match reqStr s.motionPrompt with
            | none => .error ⟨"Missing or invalid motionPrompt", some "motionPrompt", some sceneId, s.id⟩
            | some mp =>
              if splitWsLength sp < 20 then
                .error ⟨"startPrompt is too brief (minimum 20 words)", some "startPrompt", some sceneId, s.id⟩
              else if splitWsLength ep < 20 then
                .error ⟨"endPrompt is too brief (minimum 20 words)", some "endPrompt", some sceneId, s.id⟩
              else
                match s.cameraMove with
                | none => .error ⟨"Invalid cameraMove", some "cameraMove", some sceneId, s.id⟩
                | some cm =>
                  if cm ∉ validCameraMoves then
                    .error ⟨"Invalid cameraMove", some "cameraMove", some sceneId, s.id⟩
                  else
                    match reqStr s.lighting with
                    | none => .error ⟨"Missing or invalid lighting", some "lighting", some sceneId, s.id⟩
                    | some lg =>
                      if truthy s.transitionOut ∧ s.transitionOut.getD "" ∉ validTransitions then
                        .error ⟨"Invalid transitionOut", some "transitionOut", some sceneId, s.id⟩
                      else
                        .ok ⟨expectedId, d, sp, ep, mp, cm, lg, s.colorPalette,
                             s.transitionIn, s.transitionOut⟩

def validateShots (sceneId : Int) : Nat → List RawShot →
    Except ValidationError (List DirectedShot)
  | _, [] => .ok []
  | j, s :: rest =>
    match validateShot sceneId (Int.ofNat (j + 1)) s with
    | .error e => .error e
    | .ok v =>
      match validateShots sceneId (j + 1) rest with
      | .error e => .error e
      | .ok vs => .ok (v :: vs)

/-- Validation of one scene at 0-based index i: id equals i + 1, required
strings, non-empty shot array, the truthiness-guarded maxShotsPerScene cap,
then the shots. -/
def validateScene (maxShotsPerScene : Option Nat) (i : Nat) (sc : RawScene) :
    Except ValidationError DirectedScene :=
  if sc.id ≠ some (Int.ofNat (i + 1)) then
    .error ⟨"Scene ID mismatch", some "id", sc.id, none⟩
  else
    match reqStr sc.name with
    | none => .error ⟨"Missing or invalid scene name", some "name", sc.id, none⟩
    | some nm =>
      match reqStr sc.description with
      | none => .error ⟨"Missing or invalid scene description", some "description", sc.id, none⟩
      | some ds =>
        match reqStr sc.mood with
        | none => .error ⟨"Missing or invalid mood", some "mood", sc.id, none⟩
        | some md =>
          match sc.shots with
          | none => .error ⟨"Scene must have at least one shot", some "shots", sc.id, none⟩
          | some shots =>
            if shots.isEmpty then
              .error ⟨"Scene must have at least one shot", some "shots", sc.id, none⟩
            else if capExceeded maxShotsPerScene shots.length then
              .error ⟨"Scene has too many shots", some "shots", sc.id, none⟩
            else
              match validateShots (Int.ofNat (i + 1)) 0 shots with
              | .error e => .error e
              | .ok vshots => .ok ⟨Int.ofNat (i + 1), nm, ds, md, vshots⟩

def validateScenes (maxShotsPerScene : Option Nat) : Nat → List RawScene →
    Except ValidationError (List DirectedScene)
  | _, [] => .ok []
  | i, sc :: rest =>
    match validateScene maxShotsPerScene i sc with
    | .error e => .error e
    | .ok v =>
      match validateScenes maxShotsPerScene (i + 1) rest with
      | .error e => .error e
      | .ok vs => .ok (v :: vs)

def sceneDuration (sc : DirectedScene) : ℚ := (sc.shots.map (fun s => s.duration)).sum

/-- Total duration accumulated by the validation loop: the sum of all raw shot
durations (each validated shot keeps its raw duration). -/
def scenesDuration (scenes : List DirectedScene) : ℚ := (scenes.map sceneDuration).sum

def numShots (scenes : List DirectedScene) : Nat :=
  (scenes.map (fun sc => sc.shots.length)).sum

/-- validateDirection of src/src/director/parser.ts: top-level field checks,
the truthiness-guarded maxScenes cap, per-scene and per-shot validation, and
the plus-minus ten percent total-duration window around the target. -/
def validateDirection (raw : RawDirection) (input : ValidationInput) :
    Except ValidationError VideoDirection :=
  match reqStr raw.title with
  | none => .error ⟨"Missing or invalid title", some "title", none, none⟩
  | some title =>
    match reqStr raw.narrative with
    | none => .error ⟨"Missing or invalid narrative", some "narrative", none, none⟩
    | some narrative =>
      match raw.totalDuration with
      | none => .error ⟨"Missing or invalid totalDuration", some "totalDuration", none, none⟩
      | some td =>
        if td ≤ 0 then
          .error ⟨"Missing or invalid totalDuration", some "totalDuration", none, none⟩
        else
          match raw.scenes with
          | none => .error ⟨"Scenes must be a non-empty array", some "scenes", none, none⟩
          | some scenes =>
            if scenes.isEmpty then
              .error ⟨"Scenes must be a non-empty array", some "scenes", none, none⟩
            else if capExceeded input.maxScenes scenes.length then
              .error ⟨"Too many scenes", some "scenes", none, none⟩
            else
              match validateScenes input.maxShotsPerScene 0 scenes with
              | .error e => .error e
              | .ok vscenes =>
                let total := scenesDuration vscenes
                if total < input.targetDuration - input.targetDuration * (1/10) ∨
                    total > input.targetDuration + input.targetDuration * (1/10) then
                  .error ⟨"Total duration is outside acceptable range", some "totalDuration", none, none⟩
                else
                  .ok ⟨title, narrative, total, vscenes⟩

/-- Per-shot normalization at 0-based index: renumber, round the duration to
one decimal, trim the prompt strings, default a falsy transitionOut to cut. -/
def normalizeShot (shotIndex : Nat) (s : DirectedShot) : DirectedShot :=
  { s with
    id := Int.ofNat (shotIndex + 1)
    duration := round10 s.duration
    startPrompt := jsTrim s.startPrompt
    endPrompt := jsTrim s.endPrompt
    motionPrompt := jsTrim s.motionPrompt
    lighting := jsTrim s.lighting
    colorPalette := s.colorPalette.map jsTrim
    transitionOut := some (orDefault s.transitionOut "cut") }

def normalizeShots : Nat → List DirectedShot → List DirectedShot
  | _, [] => []
  | j, s :: rest => normalizeShot j s :: normalizeShots (j + 1) rest

def normalizeScene (sceneIndex : Nat) (sc : DirectedScene) : DirectedScene :=
  { sc with
    id := Int.ofNat (sceneIndex + 1)
    name := jsTrim sc.name
    description := jsTrim sc.description
    mood := jsTrim sc.mood
    shots := normalizeShots 0 sc.shots }

def normalizeScenes : Nat → List DirectedScene → List DirectedScene
  | _, [] => []
  | i, sc :: rest => normalizeScene i sc :: normalizeScenes (i + 1) rest

/-- normalizeDirection of src/src/director/parser.ts. -/
def normalizeDirection (d : VideoDirection) : VideoDirection :=
  let nscenes := normalizeScenes 0 d.scenes
  { d with
    title := jsTrim d.title
    narrative := jsTrim d.narrative
    totalDuration := round10 (scenesDuration nscenes)
    scenes := nscenes }

/-- parseDirection: validate, then normalize. -/
def parseDirection (raw : RawDirection) (input : ValidationInput) :
    Except ValidationError VideoDirection :=
  match validateDirection raw input with
  | .error e => .error e
  | .ok v => .ok (normalizeDirection v)

/-- The ValidationInput that AIDirector.refine builds for the refined output
(src/src/director/index.ts): the prior total duration as target, a scene cap
of the prior scene count plus two, and no shots-per-scene cap. -/
def refineValidationInput (direction : VideoDirection) : ValidationInput :=
  { targetDuration := direction.totalDuration
    aspectRatio := "16:9"
    maxScenes := some (direction.scenes.length + 2)
    maxShotsPerScene := none }

/-- The validation step of AIDirector.refine applied to the raw refined LLM
output. -/
def refineParse (direction : VideoDirection) (raw : RawDirection) :
    Except ValidationError VideoDirection :=
  parseDirection raw (refineValidationInput direction)

/-! ## Job orchestrator data model (src/src/durable-objects/VideoJob.ts) -/

inductive JobStatus where
  | pending
  | generating_images
  | images_complete
  | generating_videos
  | videos_complete
  | compiling
  | complete
  | failed
  deriving DecidableEq

inductive SceneStatus where
  | pending
  | generating_start_image
  | generating_end_image
  | generating_video
  | polling_video
  | complete
  | failed
  deriving DecidableEq

structure SceneJobState where
  sceneId : Int
  startImageUrl : Option String
  endImageUrl : Option String
  videoRequestId : Option String
  videoUrl : Option String
  status : SceneStatus
  error : Option String
  deriving DecidableEq

structure VideoJobState where
  id : String
  projectId : String
  status : JobStatus
  scenes : List SceneJobState
  finalVideoUrl : Option String
  progress : Int
  error : Option String
  deriving DecidableEq

/-- A plan scene as consumed by the orchestrator (legacy Scene type of
src/src/types). -/
structure Scene where
  id : Int
  name : String
  startPrompt : String
  endPrompt : String
  motionPrompt : String
  duration : ℚ
  deriving DecidableEq

/-- fal.ai queue status values. -/
inductive FalStatus where
  | IN_QUEUE
  | IN_PROGRESS
  | COMPLETED
  | FAILED
  deriving DecidableEq

/-- Creatomate render status values. -/
inductive RenderStatus where
  | planned
  | rendering
  | succeeded
  | failed
  deriving DecidableEq

structure RenderResp where
  status : RenderStatus
  url : Option String
  error_message : Option String
  deriving DecidableEq

def MAX_POLL_ATTEMPTS : Nat := 40

def MAX_RENDER_ATTEMPTS : Nat := 60

/-- One step of updateProgress: three steps per scene (each truthy url counts)
plus one compilation step; a complete job counts every step. -/
def sceneSteps (s : SceneJobState) : Nat :=
  (if truthy s.startImageUrl then 1 else 0) +
  (if truthy s.endImageUrl then 1 else 0) +
  (if truthy s.videoUrl then 1 else 0)

def completedSteps (scenes : List SceneJobState) : Nat :=
  (scenes.map sceneSteps).sum

/-- updateProgress of VideoJob: progress is Math.round of the completed
fraction of 3 n + 1 steps, with every step counted when status is complete. -/
def updateProgress (st : VideoJobState) : VideoJobState :=
  let totalSteps : Nat := st.scenes.length * 3 + 1
  let completed : Nat :=
    if st.status = JobStatus.complete then totalSteps else completedSteps st.scenes
  { st with progress := jsRound ((completed : ℚ) / (totalSteps : ℚ) * 100) }

/-- Update the first scene state whose sceneId matches (JavaScript find
returns the first match and the loop body mutates it in place). -/
def updateFirstScene (sid : Int) (f : SceneJobState → SceneJobState) :
    List SceneJobState → List SceneJobState
  | [] => []
  | s :: rest =>
    if s.sceneId = sid then f s :: rest
    else s :: updateFirstScene sid f rest

def hasScene (sid : Int) : List SceneJobState → Bool
  | [] => false
  | s :: rest => s.sceneId = sid || hasScene sid rest

/-! ### Image generation phase -/

/-- The body of the generateImages loop for one plan scene: set the scene
state to generating_start_image, call the image oracle on the start prompt,
record the url and move to generating_end_image, call the oracle on the end
prompt, record the url.  A thrown provider error aborts with the state as
mutated so far (the surrounding catch marks the whole job failed).  A plan
scene with no matching scene state is skipped. -/
def processSceneImages (gen : String → Except String String) (scene : Scene)
    (st : VideoJobState) : Except (String × VideoJobState) VideoJobState :=
  if hasScene scene.id st.scenes then
    let st1 := updateProgress
      { st with scenes := (updateFirstScene scene.id
          (fun s => { s with status := SceneStatus.generating_start_image }) st.scenes) }
    match gen scene.startPrompt with
    | .error e => .error (e, st1)
    | .ok url1 =>
      let st2 := updateProgress
        { st1 with scenes := (updateFirstScene scene.id
            (fun s => { s with startImageUrl := some url1,
                               status := SceneStatus.generating_end_image }) st1.scenes) }
      match gen scene.endPrompt with
      | .error e => .error (e, st2)
      | .ok url2 =>
        .ok { st2 with scenes := (updateFirstScene scene.id
                (fun s => { s with endImageUrl := some url2 }) st2.scenes) }
  else
    .ok st

def generateImagesLoop (gen : String → Except String String) :
    List Scene → VideoJobState → Except (String × VideoJobState) VideoJobState
  | [], st => .ok st
  | scene :: rest, st =>
    match processSceneImages gen scene st with
    | .error e => .error e
    | .ok st1 => generateImagesLoop gen rest st1

/-- generateImages of VideoJob: run the loop over every plan scene; on success
mark the job images_complete (and proceed to the video phase: the returned
flag); any thrown error is caught and fails the whole job with that message. -/
def generateImages (gen : String → Except String String) (scenes : List Scene)
    (st : VideoJobState) : VideoJobState × Bool :=
  match generateImagesLoop gen scenes st with
  | .ok st1 => (updateProgress { st1 with status := JobStatus.images_complete }, true)
  | .error (e, st1) => ({ st1 with status := JobStatus.failed, error := some e }, false)

/-! ### Video poll loop (the alarm handler) -/

/-- What the alarm does after its poll pass. -/
inductive AlarmAction where
  | halt
  | rearm
  | compile
  deriving DecidableEq

/-- The poll pass over the scene states: a scene is polled only when its
status is polling_video and its request id is truthy; COMPLETED fetches the
result url and completes the scene (two external calls), FAILED fails the
scene and raises anyFailed, anything else clears allComplete.  Returns the
updated scenes, the allComplete and anyFailed flags, and the number of
external calls issued. -/
def pollScenes (poll : String → FalStatus) (result : String → String) :
    List SceneJobState → List SceneJobState × Bool × Bool × Nat
  | [] => ([], true, false, 0)
  | s :: rest =>
    let r := pollScenes poll result rest
    if s.status = SceneStatus.polling_video ∧ truthy s.videoRequestId then
      let rid := s.videoRequestId.getD ""
      match poll rid with
      | FalStatus.COMPLETED =>
        ({ s with videoUrl := some (result rid), status := SceneStatus.complete } :: r.1,
          r.2.1, r.2.2.1, r.2.2.2 + 2)
      | FalStatus.FAILED =>
        ({ s with status := SceneStatus.failed, error := some "Video generation failed" } :: r.1,
          r.2.1, true, r.2.2.2 + 1)
      | _ => (s :: r.1, false, r.2.2.1, r.2.2.2 + 1)
    else
      (s :: r.1, r.2.1, r.2.2.1, r.2.2.2)

/-- The alarm handler of VideoJob.  Input: the loaded state and the in-memory
pollAttempts counter.  Output: the persisted state, the new counter, the
number of external calls issued during this tick, and what the handler does
next (halt, rearm the 30 second timer, or fall through to compileVideo).
A terminal job returns immediately; an incremented counter above
MAX_POLL_ATTEMPTS fails the job with the timeout message before any polling;
otherwise the poll pass runs, progress is recomputed and the state saved, and
then anyFailed fails the job, allComplete moves it to videos_complete and
continues with compilation, and otherwise the timer is re-armed. -/
def alarmStep (poll : String → FalStatus) (result : String → String)
    (st : VideoJobState) (pollAttempts : Nat) :
    VideoJobState × Nat × Nat × AlarmAction :=
  if st.status = JobStatus.complete ∨ st.status = JobStatus.failed then
    (st, pollAttempts, 0, AlarmAction.halt)
  else
    let attempts := pollAttempts + 1
    if attempts > MAX_POLL_ATTEMPTS then
      ({ st with status := JobStatus.failed, error := some "Video generation timed out" },
        attempts, 0, AlarmAction.halt)
    else
      let p := pollScenes poll result st.scenes
      let st1 := updateProgress { st with scenes := p.1 }
      if p.2.2.1 then
        ({ st1 with status := JobStatus.failed,
                    error := some "One or more videos failed to generate" },
          attempts, p.2.2.2, AlarmAction.halt)
      else if p.2.1 then
        ({ st1 with status := JobStatus.videos_complete }, attempts, p.2.2.2,
          AlarmAction.compile)
      else
        (st1, attempts, p.2.2.2, AlarmAction.rearm)

/-! ### Compilation phase -/

/-- Stable ascending insertion by sceneId (JavaScript sort with the comparator
a.sceneId - b.sceneId; the engine sort is stable). -/
def insertBySceneId (s : SceneJobState) : List SceneJobState → List SceneJobState
  | [] => [s]
  | t :: rest =>
    if t.sceneId < s.sceneId then t :: insertBySceneId s rest
    else s :: t :: rest

def sortBySceneId : List SceneJobState → List SceneJobState
  | [] => []
  | s :: rest => insertBySceneId s (sortBySceneId rest)

/-- Sort the scene states by sceneId, project the video urls and keep the
truthy ones (the filter url is string test of compileVideo). -/
def gatherVideoUrls (scenes : List SceneJobState) : List String :=
  ((sortBySceneId scenes).map (fun s => s.videoUrl)).filterMap
    (fun o => match o with
      | none => none
      | some u => if u.isEmpty then none else some u)

/-- pollRenderCompletion: up to MAX_RENDER_ATTEMPTS status checks (the oracle
is indexed by the attempt number); a succeeded render with a truthy url
returns it, a failed render throws its message (or the default), exhaustion
throws the render timeout message. -/
def pollRenderLoop (rpoll : Nat → RenderResp) : Nat → Nat → Except String String
  | _, 0 => .error "Render timed out"
  | attempt, fuel + 1 =>
    let r := rpoll attempt
    if r.status = RenderStatus.succeeded ∧ truthy r.url then
      .ok (r.url.getD "")
    else if r.status = RenderStatus.failed then
      .error (orDefault r.error_message "Render failed")
    else
      pollRenderLoop rpoll (attempt + 1) fuel

/-- compileVideo of VideoJob: mark the job compiling, gather the ordered
truthy video urls, throw with no videos to compile if there are none, submit
the Creatomate render, then poll it; success completes the job with the final
url and progress 100, and every thrown error is caught and fails the job with
its message.  There is no provider switch here: compilation always runs. -/
def compileVideo (submit : List String → Except String String)
    (rpoll : Nat → RenderResp) (st : VideoJobState) : VideoJobState :=
  let st0 := { st with status := JobStatus.compiling }
  let urls := gatherVideoUrls st0.scenes
  if urls.isEmpty then
    { st0 with status := JobStatus.failed, error := some "No videos to compile" }
  else
    match submit urls with
    | .error e => { st0 with status := JobStatus.failed, error := some e }
    | .ok _ =>
      match pollRenderLoop rpoll 0 MAX_RENDER_ATTEMPTS with
      | .ok url =>
        { st0 with finalVideoUrl := some url, status := JobStatus.complete,
                   progress := 100 }
      | .error e => { st0 with status := JobStatus.failed, error := some e }

/-! ## Worker router: job-status route (GET /api/jobs/id) -/

/-- The KV key the router uses for the job-ownership marker: every persisted
job reference is namespaced by the authenticated user id. -/
def jobKey (ownerId jobId : String) : String :=
  "user:" ++ ownerId ++ ":job:" ++ jobId

/-- What the job-status route does: either it answers 404 Job not found
without touching the durable object, or it dereferences the job state of the
given job id. -/
inductive GetJobResult where
  | notFound
  | queryJobState (jobId : String)
  deriving DecidableEq

/-- The GET /api/jobs/id handler of the worker router: look up the ownership
marker under the key namespaced by the requester; a missing marker answers 404
Job not found before the durable object is ever dereferenced. -/
def handleGetJob (cache : String → Option String) (userId jobId : String) :
    GetJobResult :=
  match cache (jobKey userId jobId) with
  | none => GetJobResult.notFound
  | some _ => GetJobResult.queryJobState jobId

/-! ## Concrete inputs used by counterexamples and witnesses -/

def defaultShot : DirectedShot := ⟨0, 0, "", "", "", "", "", none, none, none⟩

def defaultScene : DirectedScene := ⟨0, "", "", "", []⟩

def defaultDirection : VideoDirection := ⟨"", "", 0, []⟩

def defaultSceneJob : SceneJobState := ⟨0, none, none, none, none, SceneStatus.pending, none⟩

/-- Twenty words: the whitespace split has twenty pieces. -/
def w20 : String := "w w w w w w w w w w w w w w w w w w w w"

/-- Eighteen words padded by one leading and one trailing space: the
whitespace split still has twenty pieces (two of them empty edge pieces), so
the 20-piece minimum passes although only eighteen tokens remain after
trimming. -/
def w18pad : String := " w w w w w w w w w w w w w w w w w w "

def c3shot1 : RawShot :=
  ⟨some 1, some (23/4), some w18pad, some w20, some "move", some "static",
   some "soft", none, none, none⟩

def c3shot2 : RawShot :=
  ⟨some 2, some (21/4), some w20, some w20, some "m", some "static",
   some "soft", none, none, none⟩

def c3sceneRaw : RawScene := ⟨some 1, some "S", some "D", some "M", some [c3shot1, c3shot2]⟩

def c3raw : RawDirection := ⟨some "T", some "N", some 11, some [c3sceneRaw]⟩

def c3input : ValidationInput := ⟨10, "16:9", none, none⟩

def c3plan : VideoDirection := ((parseDirection c3raw c3input).toOption).getD defaultDirection

/-- A direction that validates cleanly: one scene, one five-second shot, all
three prompts twenty words. -/
def cleanShot : RawShot :=
  ⟨some 1, some 5, some w20, some w20, some w20, some "static", some "soft",
   none, none, none⟩

def cleanScene : RawScene := ⟨some 1, some "S", some "D", some "M", some [cleanShot]⟩

def cleanRaw : RawDirection := ⟨some "T", some "N", some 5, some [cleanScene]⟩

def cleanInput : ValidationInput := ⟨5, "16:9", none, none⟩

def cleanPlan : VideoDirection :=
  ((parseDirection cleanRaw cleanInput).toOption).getD defaultDirection

def c4shot : RawShot :=
  ⟨some 1, some 5, some w20, some w20, some "zoom", some "static", some "soft",
   none, none, none⟩

def c4scene : RawScene := ⟨some 1, some "S", some "D", some "M", some [c4shot]⟩

def c4raw : RawDirection := ⟨some "T", some "N", some 5, some [c4scene]⟩

def c4input : ValidationInput := ⟨5, "16:9", none, none⟩

def c4plan : VideoDirection := ((validateDirection c4raw c4input).toOption).getD defaultDirection

def c4wshot : DirectedShot := ((validateShot 1 1 cleanShot).toOption).getD defaultShot

/-- A scene state waiting on its video request. -/
def pollingScene (i : Int) (rid : String) : SceneJobState :=
  ⟨i, some "s", some "e", some rid, none, SceneStatus.polling_video, none⟩

def c1st : VideoJobState :=
  ⟨"job1", "proj1", JobStatus.generating_videos,
   [pollingScene 1 "r1", pollingScene 2 "r2"], none, 0, none⟩

def c1poll : String → FalStatus :=
  fun r => if r = "r1" then FalStatus.COMPLETED else FalStatus.FAILED

def c1result : String → String := fun _ => "vid"

/-- A job whose shots are all already terminal (one complete, one failed). -/
def c1wst : VideoJobState :=
  ⟨"job2", "proj2", JobStatus.generating_videos,
   [⟨1, some "s", some "e", some "r1", some "v", SceneStatus.complete, none⟩,
    ⟨2, some "s", some "e", some "r2", none, SceneStatus.failed,
     some "Video generation failed"⟩], none, 0, none⟩

def c6st : VideoJobState :=
  ⟨"job3", "proj3", JobStatus.generating_videos, [pollingScene 1 "r1"],
   none, 50, none⟩

def c2st : VideoJobState :=
  ⟨"job4", "proj4", JobStatus.generating_images,
   [⟨1, none, none, none, none, SceneStatus.pending, none⟩,
    ⟨2, none, none, none, none, SceneStatus.pending, none⟩], none, 0, none⟩

def c2plan1 : Scene := ⟨1, "scene one", "p start one", "p end one", "p motion one", 5⟩

def c2plan2 : Scene := ⟨2, "scene two", "p start two", "p end two", "p motion two", 5⟩

def c2gen : String → Except String String :=
  fun p => if p = "p start one" then .error "Image API error 400" else .ok "img"

def c5st : VideoJobState :=
  ⟨"job5", "proj5", JobStatus.generating_videos,
   [pollingScene 1 "a1", pollingScene 2 "a2"], none, 0, none⟩

def c5poll : String → FalStatus := fun _ => FalStatus.COMPLETED

def c5result : String → String := fun r => "vid-" ++ r

def c5submit : List String → Except String String := fun _ => .ok "render1"

def c5rpoll : Nat → RenderResp := fun _ => ⟨RenderStatus.succeeded, some "finalurl", none⟩

/-- A job that has finished its video phase with one clip. -/
def c5wst : VideoJobState :=
  ⟨"job6", "proj6", JobStatus.videos_complete,
   [⟨1, some "s", some "e", some "r", some "v1", SceneStatus.complete, none⟩],
   none, 90, none⟩

def c7scene : SceneJobState :=
  ⟨1, some "u", some "u", some "r", some "u", SceneStatus.complete, none⟩

/-- Sixty-seven scenes, every per-scene step done, still compiling: the
completed fraction 201 of 202 rounds to 100. -/
def c7st : VideoJobState :=
  ⟨"job7", "proj7", JobStatus.compiling, List.replicate 67 c7scene, none, 99, none⟩

def c7stSmall : VideoJobState :=
  ⟨"job8", "proj8", JobStatus.generating_images,
   [⟨1, some "u", none, none, none, SceneStatus.generating_end_image, none⟩],
   none, 0, none⟩

def c7stSmall2 : VideoJobState :=
  ⟨"job8", "proj8", JobStatus.generating_videos,
   [⟨1, some "u", some "u", some "r", some "u", SceneStatus.complete, none⟩],
   none, 0, none⟩

def c9cache : String → Option String :=
  fun k => if k = jobKey "bob" "job9" then some "marker" else none

def c10prior : VideoDirection := ⟨"t", "n", 5, [⟨1, "a", "b", "c", [defaultShot]⟩]⟩

def c10rawBig : RawDirection :=
  ⟨some "T", some "N", some 5, some [cleanScene, cleanScene, cleanScene, cleanScene]⟩

/-- The validated-shot facts the validator guarantees (before normalization). -/
def ShotOk (v : DirectedShot) : Prop :=
  5 ≤ v.duration ∧ v.duration ≤ 10 ∧ 20 ≤ splitWsLength v.startPrompt ∧
  20 ≤ splitWsLength v.endPrompt ∧ v.cameraMove ∈ validCameraMoves ∧
  (truthy v.transitionOut = true → v.transitionOut.getD "" ∈ validTransitions)

/-! ## Theorems -/

theorem jsRound_eq_floor (q : ℚ) : jsRound q = ⌊q + 1/2⌋ := by
  show (q + 1/2).floor = _
  rw [Rat.floor_def', ← Rat.floor_def]

theorem jsRound_mono {a b : ℚ} (h : a ≤ b) : jsRound a ≤ jsRound b := by
  rw [jsRound_eq_floor, jsRound_eq_floor]
  exact Int.floor_le_floor (by linarith)

theorem jsRound_nonneg {q : ℚ} (h : 0 ≤ q) : 0 ≤ jsRound q := by
  rw [jsRound_eq_floor]
  exact Int.le_floor.mpr (by push_cast; linarith)

theorem jsRound_le_100 {q : ℚ} (h : q ≤ 100) : jsRound q ≤ 100 := by
  rw [jsRound_eq_floor]
  have : (⌊q + 1/2⌋ : ℤ) < 101 := Int.floor_lt.mpr (by push_cast; linarith)
  omega

theorem jsRound_intCast (n : ℤ) : jsRound ((n : ℚ)) = n := by
  rw [jsRound_eq_floor, Int.floor_int_add]
  have : ⌊(1/2 : ℚ)⌋ = 0 := by
    rw [Int.floor_eq_zero_iff]
    constructor <;> norm_num
  omega

theorem round10_div10 (n : ℤ) : round10 ((n : ℚ) / 10) = (n : ℚ) / 10 := by
  rw [round10]
  have h : ((n : ℚ) / 10) * 10 = (n : ℚ) := by field_simp
  rw [h, jsRound_intCast]

theorem round10_idem (q : ℚ) : round10 (round10 q) = round10 q := by
  have h : round10 q = ((jsRound (q * 10) : ℚ)) / 10 := rfl
  rw [h, round10_div10]

theorem round10_lower {q : ℚ} : q - 1/20 ≤ round10 q := by
  have h1 : (q * 10 + 1/2) - 1 < (jsRound (q * 10) : ℚ) := by
    rw [jsRound_eq_floor]
    exact Int.sub_one_lt_floor _
  show q - 1/20 ≤ ((jsRound (q * 10) : ℚ)) / 10
  linarith

theorem round10_upper {q : ℚ} : round10 q ≤ q + 1/20 := by
  have h1 : ((jsRound (q * 10) : ℚ)) ≤ q * 10 + 1/2 := by
    rw [jsRound_eq_floor]
    exact Int.floor_le _
  show ((jsRound (q * 10) : ℚ)) / 10 ≤ q + 1/20
  linarith

theorem round10_mem {q : ℚ} (h5 : 5 ≤ q) (h10 : q ≤ 10) :
    5 ≤ round10 q ∧ round10 q ≤ 10 := by
  have hlo : (50 : ℤ) ≤ jsRound (q * 10) := by
    rw [jsRound_eq_floor]
    exact Int.le_floor.mpr (by push_cast; linarith)
  have hhi : jsRound (q * 10) < 101 := by
    rw [jsRound_eq_floor]
    exact Int.floor_lt.mpr (by push_cast; linarith)
  have hlo' : (50 : ℚ) ≤ (jsRound (q * 10) : ℚ) := by exact_mod_cast hlo
  have hhi' : (jsRound (q * 10) : ℚ) ≤ 100 := by
    have : jsRound (q * 10) ≤ 100 := by omega
    exact_mod_cast this
  constructor
  · show (5 : ℚ) ≤ ((jsRound (q * 10) : ℚ)) / 10
    linarith
  · show ((jsRound (q * 10) : ℚ)) / 10 ≤ 10
    linarith

/-! ### Trim and whitespace-split lemmas -/

theorem dropWhile_self_idem (p : Char → Bool) (l : List Char) :
    (l.dropWhile p).dropWhile p = l.dropWhile p := by
  induction l with
  | nil => rfl
  | cons c rest ih =>
    by_cases h : p c
    · simp [List.dropWhile_cons, h, ih]
    · simp [List.dropWhile_cons, h]

theorem dropWhile_head_false (p : Char → Bool) (l : List Char) :
    ∀ c rest, l.dropWhile p = c :: rest → p c = false := by
  induction l with
  | nil => intro c rest h; simp [List.dropWhile] at h
  | cons d l' ih =>
    intro c rest h
    by_cases hd : p d
    · rw [List.dropWhile_cons, if_pos hd] at h
      exact ih c rest h
    · rw [List.dropWhile_cons, if_neg hd] at h
      cases h
      simpa using hd

theorem dropWhile_suffix_exists (p : Char → Bool) (l : List Char) :
    ∃ t, t ++ l.dropWhile p = l := by
  induction l with
  | nil => exact ⟨[], rfl⟩
  | cons c l' ih =>
    by_cases h : p c
    · obtain ⟨t, ht⟩ := ih
      exact ⟨c :: t, by simp [List.dropWhile_cons, h, ht]⟩
    · exact ⟨[], by simp [List.dropWhile_cons, h]⟩

theorem trimRight_prefix_exists (l : List Char) : ∃ t, trimRightWs l ++ t = l := by
  obtain ⟨t, ht⟩ := dropWhile_suffix_exists isWs l.reverse
  refine ⟨t.reverse, ?_⟩
  show (l.reverse.dropWhile isWs).reverse ++ t.reverse = l
  rw [← List.reverse_append, ht, List.reverse_reverse]

theorem trimLeft_of_trimRight_of_trimLeft (l : List Char) :
    trimLeftWs (trimRightWs (trimLeftWs l)) = trimRightWs (trimLeftWs l) := by
  rcases hcase : trimRightWs (trimLeftWs l) with _ | ⟨c, rest⟩
  · rfl
  · obtain ⟨t, ht⟩ := trimRight_prefix_exists (trimLeftWs l)
    rw [hcase] at ht
    have hc : isWs c = false := by
      apply dropWhile_head_false isWs l c (rest ++ t)
      show trimLeftWs l = c :: (rest ++ t)
      rw [← ht]; simp
    show (c :: rest).dropWhile isWs = c :: rest
    rw [List.dropWhile_cons, if_neg (by simp [hc])]

theorem trimRight_idem (l : List Char) : trimRightWs (trimRightWs l) = trimRightWs l := by
  show ((((l.reverse.dropWhile isWs).reverse).reverse).dropWhile isWs).reverse =
    (l.reverse.dropWhile isWs).reverse
  rw [List.reverse_reverse, dropWhile_self_idem]

theorem jsTrim_idem (s : String) : jsTrim (jsTrim s) = jsTrim s := by
  have h : (String.mk (trimRightWs (trimLeftWs s.data))).data =
      trimRightWs (trimLeftWs s.data) := rfl
  unfold jsTrim
  rw [h, trimLeft_of_trimRight_of_trimLeft, trimRight_idem]

theorem wsRunsAux_true_eq (l : List Char) :
    wsRunsAux true l = wsRuns (l.dropWhile isWs) := by
  induction l with
  | nil => rfl
  | cons c rest ih =>
    by_cases h : isWs c
    · simp only [wsRunsAux, h, if_true, List.dropWhile_cons]
      simpa using ih
    · simp only [wsRunsAux, h, if_false, List.dropWhile_cons]
      simp [h, wsRuns, wsRunsAux]

theorem wsRuns_le_dropWhile_add_one (l : List Char) :
    wsRuns l ≤ wsRuns (l.dropWhile isWs) + 1 := by
  cases l with
  | nil => simp [wsRuns, wsRunsAux]
  | cons c rest =>
    by_cases h : isWs c
    · have : wsRuns (c :: rest) = 1 + wsRunsAux true rest := by
        simp [wsRuns, wsRunsAux, h]
      rw [this, wsRunsAux_true_eq, List.dropWhile_cons, if_pos h]
      omega
    · rw [List.dropWhile_cons, if_neg h]
      omega

theorem lastWsState_append_one (m : List Char) (c : Char) :
    ∀ b, lastWsState b (m ++ [c]) = isWs c := by
  induction m with
  | nil => intro b; rfl
  | cons d m' ih => intro b; simp only [List.cons_append, lastWsState]; exact ih _

theorem wsRunsAux_append_one (l : List Char) (c : Char) :
    ∀ b, wsRunsAux b (l ++ [c]) =
      wsRunsAux b l + (if isWs c && !(lastWsState b l) then 1 else 0) := by
  induction l with
  | nil =>
    intro b
    cases hc : isWs c <;> cases b <;> simp [wsRunsAux, lastWsState, hc]
  | cons d rest ih =>
    intro b
    show wsRunsAux b (d :: (rest ++ [c])) = _
    by_cases hd : isWs d
    · rw [show wsRunsAux b (d :: (rest ++ [c])) =
          (if b then 0 else 1) + wsRunsAux true (rest ++ [c]) from by
        simp [wsRunsAux, hd]]
      rw [show wsRunsAux b (d :: rest) =
          (if b then 0 else 1) + wsRunsAux true rest from by simp [wsRunsAux, hd]]
      rw [show lastWsState b (d :: rest) = lastWsState true rest from by
        simp [lastWsState, hd]]
      rw [ih true]
      omega
    · rw [show wsRunsAux b (d :: (rest ++ [c])) = wsRunsAux false (rest ++ [c]) from by
        simp [wsRunsAux, hd]]
      rw [show wsRunsAux b (d :: rest) = wsRunsAux false rest from by
        simp [wsRunsAux, hd]]
      rw [show lastWsState b (d :: rest) = lastWsState false rest from by
        simp [lastWsState, hd]]
      rw [ih false]

theorem wsRuns_cons_eq (c : Char) (l : List Char) :
    wsRuns (c :: l) = wsRuns l + (if isWs c && !(firstWs l) then 1 else 0) := by
  by_cases hc : isWs c
  · cases l with
    | nil => simp [wsRuns, wsRunsAux, firstWs, hc]
    | cons d l' =>
      by_cases hd : isWs d
      · simp [wsRuns, wsRunsAux, firstWs, hc, hd]
      · simp [wsRuns, wsRunsAux, firstWs, hc, hd]
        omega
  · simp [wsRuns, wsRunsAux, hc]

theorem lastWsState_reverse (l : List Char) :
    lastWsState false l.reverse = firstWs l := by
  cases l with
  | nil => rfl
  | cons c l' => rw [List.reverse_cons, lastWsState_append_one]; rfl

theorem wsRuns_reverse (l : List Char) : wsRuns l.reverse = wsRuns l := by
  induction l with
  | nil => rfl
  | cons c l' ih =>
    rw [List.reverse_cons]
    show wsRunsAux false (l'.reverse ++ [c]) = _
    rw [wsRunsAux_append_one l'.reverse c false]
    show wsRuns l'.reverse + _ = _
    rw [lastWsState_reverse, ih, wsRuns_cons_eq]

theorem wsRuns_trimRight (l : List Char) :
    wsRuns l ≤ wsRuns (trimRightWs l) + 1 := by
  have h1 : wsRuns (trimRightWs l) = wsRuns (l.reverse.dropWhile isWs) := by
    show wsRuns ((l.reverse.dropWhile isWs).reverse) = _
    rw [wsRuns_reverse]
  have h2 : wsRuns l.reverse ≤ wsRuns (l.reverse.dropWhile isWs) + 1 :=
    wsRuns_le_dropWhile_add_one l.reverse
  rw [wsRuns_reverse] at h2
  omega

theorem splitWsLength_jsTrim (s : String) :
    splitWsLength s ≤ splitWsLength (jsTrim s) + 2 := by
  show wsRuns s.data + 1 ≤ wsRuns (trimRightWs (trimLeftWs s.data)) + 1 + 2
  have h1 : wsRuns s.data ≤ wsRuns (trimLeftWs s.data) + 1 :=
    wsRuns_le_dropWhile_add_one s.data
  have h2 : wsRuns (trimLeftWs s.data) ≤ wsRuns (trimRightWs (trimLeftWs s.data)) + 1 :=
    wsRuns_trimRight _
  omega

/-! ### Normalization idempotence -/

theorem orDefault_cut_not_empty (o : Option String) :
    (orDefault o "cut").isEmpty = false := by
  cases o with
  | none => rfl
  | some s =>
    show (if s.isEmpty then "cut" else s).isEmpty = false
    by_cases hs : s.isEmpty
    · rw [if_pos hs]; rfl
    · rw [if_neg hs]; simpa using hs

theorem orDefault_cut_idem (o : Option String) :
    orDefault (some (orDefault o "cut")) "cut" = orDefault o "cut" := by
  show (if (orDefault o "cut").isEmpty then "cut" else orDefault o "cut") = _
  rw [orDefault_cut_not_empty]
  simp

theorem optTrim_idem (o : Option String) :
    (o.map jsTrim).map jsTrim = o.map jsTrim := by
  cases o <;> simp [jsTrim_idem]

theorem optTrim_comp (o : Option String) :
    Option.map (jsTrim ∘ jsTrim) o = Option.map jsTrim o := by
  cases o <;> simp [jsTrim_idem]

theorem normalizeShot_idem (j : Nat) (s : DirectedShot) :
    normalizeShot j (normalizeShot j s) = normalizeShot j s := by
  cases s
  simp [normalizeShot, jsTrim_idem, round10_idem, orDefault_cut_idem, optTrim_idem,
    optTrim_comp]

theorem normalizeShots_idem (l : List DirectedShot) :
    ∀ j, normalizeShots j (normalizeShots j l) = normalizeShots j l := by
  induction l with
  | nil => intro j; rfl
  | cons s rest ih =>
    intro j
    show normalizeShot j (normalizeShot j s) :: normalizeShots (j + 1) (normalizeShots (j + 1) rest) = _
    rw [normalizeShot_idem, ih]
    rfl

theorem normalizeScene_idem (i : Nat) (sc : DirectedScene) :
    normalizeScene i (normalizeScene i sc) = normalizeScene i sc := by
  cases sc
  simp [normalizeScene, jsTrim_idem, normalizeShots_idem]

theorem normalizeScenes_idem (l : List DirectedScene) :
    ∀ i, normalizeScenes i (normalizeScenes i l) = normalizeScenes i l := by
  induction l with
  | nil => intro i; rfl
  | cons sc rest ih =>
    intro i
    show normalizeScene i (normalizeScene i sc) :: normalizeScenes (i + 1) (normalizeScenes (i + 1) rest) = _
    rw [normalizeScene_idem, ih]
    rfl

/-- C8: normalizeDirection is idempotent: for every VideoDirection x,
normalizeDirection (normalizeDirection x) = normalizeDirection x. -/
theorem C8_normalize_idempotent (x : VideoDirection) :
    normalizeDirection (normalizeDirection x) = normalizeDirection x := by
  cases x with
  | mk title narrative total scenes =>
    show normalizeDirection ⟨jsTrim title, jsTrim narrative,
      round10 (scenesDuration (normalizeScenes 0 scenes)), normalizeScenes 0 scenes⟩ = _
    show (⟨jsTrim (jsTrim title), jsTrim (jsTrim narrative),
      round10 (scenesDuration (normalizeScenes 0 (normalizeScenes 0 scenes))),
      normalizeScenes 0 (normalizeScenes 0 scenes)⟩ : VideoDirection) = _
    rw [jsTrim_idem, jsTrim_idem, normalizeScenes_idem]
    rfl

/-! ### Validator inversion -/

theorem toOption_eq_some {ε α : Type} {x : Except ε α} {a : α}
    (h : x.toOption = some a) : x = .ok a := by
  cases x <;> simp_all [Except.toOption]

theorem validateShot_ok {sid eid : Int} {s : RawShot} {v : DirectedShot}
    (h : validateShot sid eid s = .ok v) : ShotOk v := by
  unfold validateShot at h
  repeat split at h <;> try simp_all [ShotOk, not_or, not_lt]
  subst h
  refine ⟨?_, ?_, ?_, ?_, ?_, ?_⟩ <;> simp_all

theorem validateShots_ok {sid : Int} {shots : List RawShot} :
    ∀ {j : Nat} {vs : List DirectedShot}, validateShots sid j shots = .ok vs →
      ∀ v ∈ vs, ShotOk v := by
  induction shots with
  | nil =>
    intro j vs h v hv
    simp only [validateShots] at h
    cases h
    simp at hv
  | cons s rest ih =>
    intro j vs h v hv
    simp only [validateShots] at h
    split at h
    · cases h
    · split at h
      · cases h
      · cases h
        rcases List.mem_cons.mp hv with h1 | h1
        · subst h1
          exact validateShot_ok (by assumption)
        · exact ih (by assumption) v h1

theorem validateScene_ok {msps : Option Nat} {i : Nat} {sc : RawScene}
    {scv : DirectedScene} (h : validateScene msps i sc = .ok scv) :
    ∀ v ∈ scv.shots, ShotOk v := by
  unfold validateScene at h
  repeat split at h <;> try simp_all
  cases h
  intro v hv
  exact validateShots_ok (by assumption) v hv

theorem validateScenes_ok {msps : Option Nat} {scenes : List RawScene} :
    ∀ {i : Nat} {vs : List DirectedScene}, validateScenes msps i scenes = .ok vs →
      ∀ sc ∈ vs, ∀ v ∈ sc.shots, ShotOk v := by
  induction scenes with
  | nil =>
    intro i vs h sc hsc
    simp only [validateScenes] at h
    cases h
    simp at hsc
  | cons s rest ih =>
    intro i vs h sc hsc
    simp only [validateScenes] at h
    split at h
    · cases h
    · split at h
      · cases h
      · cases h
        rcases List.mem_cons.mp hsc with h1 | h1
        · subst h1
          exact validateScene_ok (by assumption)
        · exact ih (by assumption) sc h1

theorem validateDirection_ok {raw : RawDirection} {input : ValidationInput}
    {d : VideoDirection} (h : validateDirection raw input = .ok d) :
    (∀ sc ∈ d.scenes, ∀ v ∈ sc.shots, ShotOk v) ∧
    d.totalDuration = scenesDuration d.scenes ∧
    input.targetDuration - input.targetDuration * (1/10) ≤ d.totalDuration ∧
    d.totalDuration ≤ input.targetDuration + input.targetDuration * (1/10) := by
  unfold validateDirection at h
  repeat split at h <;> try simp_all [not_or, not_lt]
  cases h
  refine ⟨fun sc hsc => validateScenes_ok (by assumption) sc hsc, rfl, ?_, ?_⟩ <;>
    simp_all

/-! ### C4: the motionPrompt length check is absent -/

/-- C4 (amended): validateDirection applies the minimum-token check only to
startPrompt and endPrompt; motionPrompt is only required to be a non-empty
string.  Replacing the motionPrompt of a shot that validates by an arbitrary
non-empty string of any token count still validates, with only that field
changed. -/
theorem C4_no_motionPrompt_length_check {sid eid : Int} {s : RawShot}
    {v : DirectedShot} (m : String) (h : validateShot sid eid s = .ok v)
    (hm : m.isEmpty = false) :
    validateShot sid eid { s with motionPrompt := some m } =
      .ok { v with motionPrompt := m } := by
  unfold validateShot at h ⊢
  repeat split at h <;> try simp_all [reqStr]
  cases h
  rw [if_neg (by simp_all [not_or, not_lt])]
  rw [if_neg (by simp_all [not_lt])]
  rw [if_neg (by simp_all [not_lt])]
  rw [if_neg (by simp_all [not_not])]

/-! ### Normalization transfer lemmas -/

theorem normalizeShots_length (l : List DirectedShot) :
    ∀ j, (normalizeShots j l).length = l.length := by
  induction l with
  | nil => intro j; rfl
  | cons s rest ih =>
    intro j
    show (normalizeShot j s :: normalizeShots (j + 1) rest).length = _
    simp [ih]

theorem normalizeScenes_length (l : List DirectedScene) :
    ∀ i, (normalizeScenes i l).length = l.length := by
  induction l with
  | nil => intro i; rfl
  | cons sc rest ih =>
    intro i
    show (normalizeScene i sc :: normalizeScenes (i + 1) rest).length = _
    simp [ih]

theorem normalizeShots_getD_id (l : List DirectedShot) :
    ∀ j k, k < l.length →
      ((normalizeShots j l).getD k defaultShot).id = Int.ofNat (j + k + 1) := by
  induction l with
  | nil => intro j k hk; simp at hk
  | cons s rest ih =>
    intro j k hk
    cases k with
    | zero => rfl
    | succ k' =>
      show ((normalizeShots (j + 1) rest).getD k' defaultShot).id = _
      rw [ih (j + 1) k' (by simpa using hk)]
      congr 1
      omega

theorem normalizeScenes_getD_id (l : List DirectedScene) :
    ∀ i k, k < l.length →
      ((normalizeScenes i l).getD k defaultScene).id = Int.ofNat (i + k + 1) := by
  induction l with
  | nil => intro i k hk; simp at hk
  | cons sc rest ih =>
    intro i k hk
    cases k with
    | zero => rfl
    | succ k' =>
      show ((normalizeScenes (i + 1) rest).getD k' defaultScene).id = _
      rw [ih (i + 1) k' (by simpa using hk)]
      congr 1
      omega

theorem mem_normalizeShots {v' : DirectedShot} (l : List DirectedShot) :
    ∀ j, v' ∈ normalizeShots j l → ∃ v ∈ l, ∃ k, v' = normalizeShot k v := by
  induction l with
  | nil => intro j hv; cases hv
  | cons s rest ih =>
    intro j hv
    rcases List.mem_cons.mp hv with h1 | h1
    · exact ⟨s, List.mem_cons_self s rest, j, h1⟩
    · obtain ⟨v, hmem, k, hk⟩ := ih (j + 1) h1
      exact ⟨v, List.mem_cons_of_mem s hmem, k, hk⟩

theorem mem_normalizeScenes {sc' : DirectedScene} (l : List DirectedScene) :
    ∀ i, sc' ∈ normalizeScenes i l → ∃ sc ∈ l, ∃ k, sc' = normalizeScene k sc := by
  induction l with
  | nil => intro i hs; cases hs
  | cons sc rest ih =>
    intro i hs
    rcases List.mem_cons.mp hs with h1 | h1
    · exact ⟨sc, List.mem_cons_self sc rest, i, h1⟩
    · obtain ⟨sc0, hmem, k, hk⟩ := ih (i + 1) h1
      exact ⟨sc0, List.mem_cons_of_mem sc hmem, k, hk⟩

theorem normalizeShot_props {v : DirectedShot} (hOk : ShotOk v) (k : Nat) :
    (normalizeShot k v).cameraMove ∈ validCameraMoves ∧
    (∀ t, (normalizeShot k v).transitionOut = some t → t ∈ validTransitions) ∧
    5 ≤ (normalizeShot k v).duration ∧ (normalizeShot k v).duration ≤ 10 ∧
    18 ≤ splitWsLength (normalizeShot k v).startPrompt ∧
    18 ≤ splitWsLength (normalizeShot k v).endPrompt := by
  obtain ⟨h5, h10, hsp, hep, hcm, htr⟩ := hOk
  have hdur := round10_mem h5 h10
  have hspt := splitWsLength_jsTrim v.startPrompt
  have hept := splitWsLength_jsTrim v.endPrompt
  have hsp' : (normalizeShot k v).startPrompt = jsTrim v.startPrompt := rfl
  have hep' : (normalizeShot k v).endPrompt = jsTrim v.endPrompt := rfl
  refine ⟨hcm, ?_, hdur.1, hdur.2, by rw [hsp']; omega, by rw [hep']; omega⟩
  intro t ht
  have ht' : orDefault v.transitionOut "cut" = t := by
    have : (normalizeShot k v).transitionOut = some (orDefault v.transitionOut "cut") := rfl
    rw [this] at ht
    exact Option.some.inj ht
  subst ht'
  cases hto : v.transitionOut with
  | none => simp [orDefault, validTransitions]
  | some s =>
    show (if s.isEmpty then "cut" else s) ∈ validTransitions
    by_cases hs : s.isEmpty
    · rw [if_pos hs]; simp [validTransitions]
    · rw [if_neg hs]
      have htruthy : truthy v.transitionOut = true := by
        rw [hto]; simpa [truthy] using hs
      have := htr htruthy
      rwa [hto] at this

theorem shotsDur_round_close (l : List DirectedShot) :
    ∀ j, (l.map (fun s => s.duration)).sum - (l.length : ℚ) * (1/20) ≤
        ((normalizeShots j l).map (fun s => s.duration)).sum ∧
      ((normalizeShots j l).map (fun s => s.duration)).sum ≤
        (l.map (fun s => s.duration)).sum + (l.length : ℚ) * (1/20) := by
  induction l with
  | nil => intro j; simp [normalizeShots]
  | cons s rest ih =>
    intro j
    have hlo := @round10_lower s.duration
    have hhi := @round10_upper s.duration
    have ihj := ih (j + 1)
    show s.duration + (rest.map (fun s => s.duration)).sum - _ ≤
        round10 s.duration + ((normalizeShots (j + 1) rest).map (fun s => s.duration)).sum ∧
      round10 s.duration + ((normalizeShots (j + 1) rest).map (fun s => s.duration)).sum ≤
        s.duration + (rest.map (fun s => s.duration)).sum + _
    simp only [List.length_cons]
    push_cast
    constructor <;> [linarith [ihj.1]; linarith [ihj.2]]

theorem shotsDur_norm_div10 (l : List DirectedShot) :
    ∀ j, ∃ K : ℤ, ((normalizeShots j l).map (fun s => s.duration)).sum = (K : ℚ) / 10 := by
  induction l with
  | nil => intro j; exact ⟨0, by simp [normalizeShots]⟩
  | cons s rest ih =>
    intro j
    obtain ⟨K, hK⟩ := ih (j + 1)
    refine ⟨jsRound (s.duration * 10) + K, ?_⟩
    show round10 s.duration + ((normalizeShots (j + 1) rest).map (fun s => s.duration)).sum = _
    rw [hK]
    show ((jsRound (s.duration * 10) : ℚ)) / 10 + (K : ℚ) / 10 = _
    push_cast
    ring

theorem sceneDuration_normalize (sc : DirectedScene) (k : Nat) :
    sceneDuration (normalizeScene k sc) =
      ((normalizeShots 0 sc.shots).map (fun s => s.duration)).sum := rfl

theorem scenesDuration_normalize_close (l : List DirectedScene) :
    ∀ i, scenesDuration l - (numShots l : ℚ) * (1/20) ≤
        scenesDuration (normalizeScenes i l) ∧
      scenesDuration (normalizeScenes i l) ≤
        scenesDuration l + (numShots l : ℚ) * (1/20) := by
  induction l with
  | nil => intro i; simp [scenesDuration, numShots, normalizeScenes]
  | cons sc rest ih =>
    intro i
    have hsc := shotsDur_round_close sc.shots 0
    have ihi := ih (i + 1)
    have hexp : scenesDuration (normalizeScenes i (sc :: rest)) =
        ((normalizeShots 0 sc.shots).map (fun s => s.duration)).sum +
          scenesDuration (normalizeScenes (i + 1) rest) := by
      show (List.map sceneDuration (normalizeScene i sc :: normalizeScenes (i + 1) rest)).sum = _
      simp [sceneDuration_normalize, scenesDuration]
    have hexp2 : scenesDuration (sc :: rest) =
        (sc.shots.map (fun s => s.duration)).sum + scenesDuration rest := by
      simp [scenesDuration, sceneDuration]
    have hns : (numShots (sc :: rest) : ℚ) =
        (sc.shots.length : ℚ) + (numShots rest : ℚ) := by
      simp [numShots]
    rw [hexp, hexp2, hns]
    constructor <;> [linarith [hsc.1, ihi.1]; linarith [hsc.2, ihi.2]]

theorem scenesDuration_norm_div10 (l : List DirectedScene) :
    ∀ i, ∃ K : ℤ, scenesDuration (normalizeScenes i l) = (K : ℚ) / 10 := by
  induction l with
  | nil => intro i; exact ⟨0, by simp [scenesDuration, normalizeScenes]⟩
  | cons sc rest ih =>
    intro i
    obtain ⟨K1, hK1⟩ := shotsDur_norm_div10 sc.shots 0
    obtain ⟨K2, hK2⟩ := ih (i + 1)
    refine ⟨K1 + K2, ?_⟩
    have hexp : scenesDuration (normalizeScenes i (sc :: rest)) =
        ((normalizeShots 0 sc.shots).map (fun s => s.duration)).sum +
          scenesDuration (normalizeScenes (i + 1) rest) := by
      show (List.map sceneDuration (normalizeScene i sc :: normalizeScenes (i + 1) rest)).sum = _
      simp [sceneDuration_normalize, scenesDuration]
    rw [hexp, hK1, hK2]
    push_cast
    ring

theorem numShots_normalize (l : List DirectedScene) :
    ∀ i, numShots (normalizeScenes i l) = numShots l := by
  induction l with
  | nil => intro i; rfl
  | cons sc rest ih =>
    intro i
    show numShots (normalizeScene i sc :: normalizeScenes (i + 1) rest) = _
    show (normalizeShots 0 sc.shots).length + numShots (normalizeScenes (i + 1) rest) = _
    rw [normalizeShots_length, ih]
    rfl

/-! ### C3: invariants of an accepted plan -/

/-- C3 (amended): for every plan accepted by parseDirection, scene ids and
shot ids are contiguous 1-based, every cameraMove and every transitionOut of
the plan is in its closed set, every shot duration lies in the interval 5 to
10, the plan total duration lies within ten percent of the target plus a
rounding slack of one twentieth per shot (rounding each duration to a tenth
can push the total outside the bare ten percent window), and the normalized
startPrompt and endPrompt keep at least 18 whitespace-separated pieces (the
validator counts the split pieces of the raw prompt, at least 20, but up to
two of those may be empty edge pieces that trimming removes); the motionPrompt
has no token minimum at all. -/
theorem C3_plan_invariants {raw : RawDirection} {input : ValidationInput}
    {plan : VideoDirection} (h : parseDirection raw input = .ok plan) :
    (∀ k, k < plan.scenes.length →
      (plan.scenes.getD k defaultScene).id = Int.ofNat (k + 1)) ∧
    (∀ sc ∈ plan.scenes, ∀ j, j < sc.shots.length →
      (sc.shots.getD j defaultShot).id = Int.ofNat (j + 1)) ∧
    (∀ sc ∈ plan.scenes, ∀ v ∈ sc.shots,
      v.cameraMove ∈ validCameraMoves ∧
      (∀ t, v.transitionOut = some t → t ∈ validTransitions) ∧
      5 ≤ v.duration ∧ v.duration ≤ 10 ∧
      18 ≤ splitWsLength v.startPrompt ∧ 18 ≤ splitWsLength v.endPrompt) ∧
    |plan.totalDuration - input.targetDuration| ≤
      input.targetDuration * (1/10) + (numShots plan.scenes : ℚ) * (1/20) := by
  unfold parseDirection at h
  split at h
  · cases h
  · cases h
    rename_i v hv
    obtain ⟨hshots, htot, hlo, hhi⟩ := validateDirection_ok hv
    have hscenes : (normalizeDirection v).scenes = normalizeScenes 0 v.scenes := rfl
    have htotal : (normalizeDirection v).totalDuration =
        round10 (scenesDuration (normalizeScenes 0 v.scenes)) := rfl
    refine ⟨?_, ?_, ?_, ?_⟩
    · intro k hk
      rw [hscenes] at hk ⊢
      rw [normalizeScenes_length] at hk
      rw [normalizeScenes_getD_id v.scenes 0 k hk]
      simp
    · intro sc hsc j hj
      rw [hscenes] at hsc
      obtain ⟨sc0, _, k, hk⟩ := mem_normalizeScenes v.scenes 0 hsc
      subst hk
      have hsh : (normalizeScene k sc0).shots = normalizeShots 0 sc0.shots := rfl
      rw [hsh] at hj ⊢
      rw [normalizeShots_length] at hj
      rw [normalizeShots_getD_id sc0.shots 0 j hj]
      simp
    · intro sc hsc v' hv'
      rw [hscenes] at hsc
      obtain ⟨sc0, hsc0, k, hk⟩ := mem_normalizeScenes v.scenes 0 hsc
      subst hk
      have hsh : (normalizeScene k sc0).shots = normalizeShots 0 sc0.shots := rfl
      rw [hsh] at hv'
      obtain ⟨w, hw, k', hk'⟩ := mem_normalizeShots sc0.shots 0 hv'
      subst hk'
      exact normalizeShot_props (hshots sc0 hsc0 w hw) k'
    · rw [htotal, hscenes]
      obtain ⟨K, hK⟩ := scenesDuration_norm_div10 v.scenes 0
      rw [hK, round10_div10, ← hK]
      have hclose := scenesDuration_normalize_close v.scenes 0
      rw [numShots_normalize]
      rw [htot] at hlo hhi
      rw [abs_le]
      constructor <;> [linarith [hclose.1]; linarith [hclose.2]]

/-- C3 counterexample: parseDirection accepts an input whose resulting plan
has a one-token motionPrompt, an eighteen-token startPrompt, and a total
duration strictly outside the ten percent window around the target (rounding
5.75 and 5.25 up to 5.8 and 5.3 lifts the total from the accepted 11.0 to
11.1 while the window for target 10 ends at 11.0). -/
theorem C3_counterexample :
    (parseDirection c3raw c3input).toOption = some c3plan ∧
    splitWsLength (((c3plan.scenes.getD 0 defaultScene).shots.getD 0 defaultShot).motionPrompt) < 20 ∧
    splitWsLength (((c3plan.scenes.getD 0 defaultScene).shots.getD 0 defaultShot).startPrompt) < 20 ∧
    c3input.targetDuration + c3input.targetDuration * (1/10) < c3plan.totalDuration := by
  refine ⟨?_, ?_, ?_, ?_⟩ <;> with_unfolding_all decide

/-- C3 witness: the amended invariants applied to a concretely accepted plan. -/
theorem C3_witness :
    (cleanPlan.scenes.getD 0 defaultScene).id = Int.ofNat 1 ∧
    |cleanPlan.totalDuration - cleanInput.targetDuration| ≤
      cleanInput.targetDuration * (1/10) + (numShots cleanPlan.scenes : ℚ) * (1/20) := by
  have h : parseDirection cleanRaw cleanInput = .ok cleanPlan :=
    toOption_eq_some (by with_unfolding_all decide)
  have H := C3_plan_invariants h
  exact ⟨H.1 0 (by with_unfolding_all decide), H.2.2.2⟩

/-- C4 counterexample: the claim says validateDirection rejects any direction
containing a shot whose motionPrompt has fewer than 20 whitespace-separated
tokens; the validator accepts c4raw although its only motionPrompt is the
single token zoom. -/
theorem C4_counterexample :
    (validateDirection c4raw c4input).toOption = some c4plan ∧
    splitWsLength (((c4plan.scenes.getD 0 defaultScene).shots.getD 0 defaultShot).motionPrompt) < 20 := by
  constructor
  · with_unfolding_all decide
  · with_unfolding_all decide

/-! ### C10: refine validation caps -/

theorem vd_drop_cap {raw : RawDirection} {t : ℚ} {a : String} {cap : Nat}
    {l : List RawScene} {plan : VideoDirection}
    (hs : raw.scenes = some l) (hlen : l.length ≤ cap)
    (hok : validateDirection raw ⟨t, a, none, none⟩ = .ok plan) :
    validateDirection raw ⟨t, a, some cap, none⟩ = .ok plan := by
  unfold validateDirection at hok ⊢
  repeat split at hok <;> try simp_all [capExceeded]
  rw [if_neg (not_le.mpr (by assumption))]
  rw [if_neg (by omega)]

theorem vd_cap_reject {raw : RawDirection} {t : ℚ} {a : String} {cap : Nat}
    {l : List RawScene}
    (hs : raw.scenes = some l) (hcap : cap ≠ 0) (hlen : cap < l.length) :
    ∃ e, validateDirection raw ⟨t, a, some cap, none⟩ = .error e := by
  unfold validateDirection
  repeat' first
    | exact ⟨_, rfl⟩
    | split
  all_goals simp_all [capExceeded]

/-- C10: refine validates the refined output against the prior plan total
duration as target, a scene cap of the prior scene count plus two, and no
shots-per-scene cap; a refined output with at most two additional scenes that
otherwise validates (with no caps) is accepted unchanged, and one with more
scenes than the cap is rejected. -/
theorem C10_refine_caps (prior : VideoDirection) (raw : RawDirection) :
    refineValidationInput prior =
      ⟨prior.totalDuration, "16:9", some (prior.scenes.length + 2), none⟩ ∧
    (∀ l plan, raw.scenes = some l → l.length ≤ prior.scenes.length + 2 →
      parseDirection raw ⟨prior.totalDuration, "16:9", none, none⟩ = .ok plan →
      refineParse prior raw = .ok plan) ∧
    (∀ l, raw.scenes = some l → prior.scenes.length + 2 < l.length →
      ∃ e, refineParse prior raw = .error e) := by
  refine ⟨rfl, ?_, ?_⟩
  · intro l plan hs hlen hparse
    unfold parseDirection at hparse
    split at hparse
    · cases hparse
    · cases hparse
      rename_i v hvd
      unfold refineParse parseDirection refineValidationInput
      rw [vd_drop_cap hs hlen hvd]
  · intro l hs hlen
    obtain ⟨e, he⟩ :=
      @vd_cap_reject raw prior.totalDuration "16:9" (prior.scenes.length + 2) l
        hs (by omega) hlen
    refine ⟨e, ?_⟩
    unfold refineParse parseDirection refineValidationInput
    rw [he]

/-- C10 witness: the theorem applied at a concrete prior plan (one scene, so
the cap is three) and a concrete one-scene refined output. -/
theorem C10_witness : refineParse c10prior cleanRaw = .ok cleanPlan := by
  have h : parseDirection cleanRaw
      ⟨c10prior.totalDuration, "16:9", none, none⟩ = .ok cleanPlan :=
    toOption_eq_some (by with_unfolding_all decide)
  exact (C10_refine_caps c10prior cleanRaw).2.1 [cleanScene] cleanPlan rfl
    (by decide) h

/-- C4 witness: the amended theorem applied at a concrete accepted shot. -/
theorem C4_witness :
    validateShot 1 1 { cleanShot with motionPrompt := some "pan fast" } =
      .ok { c4wshot with motionPrompt := "pan fast" } := by
  have h : validateShot 1 1 cleanShot = .ok c4wshot :=
    toOption_eq_some (by with_unfolding_all decide)
  exact C4_no_motionPrompt_length_check "pan fast" h (by decide)

/-! ### C1 and C6: the video poll loop -/

theorem pollScenes_all_skipped {poll : String → FalStatus} {result : String → String} :
    ∀ {scenes : List SceneJobState},
      (∀ s ∈ scenes, ¬(s.status = SceneStatus.polling_video ∧ truthy s.videoRequestId = true)) →
      pollScenes poll result scenes = (scenes, true, false, 0) := by
  intro scenes
  induction scenes with
  | nil => intro _; rfl
  | cons s rest ih =>
    intro h
    show (let r := pollScenes poll result rest;
      if s.status = SceneStatus.polling_video ∧ truthy s.videoRequestId then _ else
        (s :: r.1, r.2.1, r.2.2.1, r.2.2.2)) = _
    rw [ih (fun t ht => h t (List.mem_cons_of_mem s ht))]
    rw [if_neg (h s (List.mem_cons_self s rest))]

/-- C1 (amended): in the poll loop, a tick in which some polled shot reports
FAILED transitions the whole job to Failed with the message One or more videos
failed to generate — partial video failure is not tolerated; the job moves to
VideosComplete (and on to compilation) only in a tick in which no polled shot
fails and none is still in progress; in particular a tick that finds every
shot already terminal (whether Complete or Failed) moves to VideosComplete. -/
theorem C1_video_poll_failure (poll : String → FalStatus) (result : String → String)
    (st : VideoJobState) (attempts : Nat)
    (hterm : ¬(st.status = JobStatus.complete ∨ st.status = JobStatus.failed))
    (hatt : attempts + 1 ≤ MAX_POLL_ATTEMPTS) :
    ((pollScenes poll result st.scenes).2.2.1 = true →
      alarmStep poll result st attempts =
        ({ updateProgress { st with scenes := (pollScenes poll result st.scenes).1 } with
            status := JobStatus.failed,
            error := some "One or more videos failed to generate" },
          attempts + 1, (pollScenes poll result st.scenes).2.2.2, AlarmAction.halt)) ∧
    ((pollScenes poll result st.scenes).2.2.1 = false →
      (pollScenes poll result st.scenes).2.1 = true →
      alarmStep poll result st attempts =
        ({ updateProgress { st with scenes := (pollScenes poll result st.scenes).1 } with
            status := JobStatus.videos_complete },
          attempts + 1, (pollScenes poll result st.scenes).2.2.2, AlarmAction.compile)) ∧
    ((∀ s ∈ st.scenes, s.status = SceneStatus.complete ∨ s.status = SceneStatus.failed) →
      (pollScenes poll result st.scenes).2.2.1 = false ∧
      (pollScenes poll result st.scenes).2.1 = true) := by
  refine ⟨?_, ?_, ?_⟩
  · intro hfail
    simp only [alarmStep]
    rw [if_neg hterm, if_neg (by omega), if_pos hfail]
  · intro hfail hall
    simp only [alarmStep]
    rw [if_neg hterm, if_neg (by omega), if_neg (by simp [hfail]), if_pos hall]
  · intro hts
    have h : ∀ s ∈ st.scenes,
        ¬(s.status = SceneStatus.polling_video ∧ truthy s.videoRequestId = true) := by
      intro s hs hcon
      rcases hts s hs with h' | h' <;> rw [h'] at hcon <;> exact absurd hcon.1 (by simp)
    rw [pollScenes_all_skipped h]
    exact ⟨rfl, rfl⟩

/-- C1 counterexample: two shots polling, the first completes and the second
fails; the tick transitions the job to Failed, not VideosComplete, although
one shot is Complete — refuting the claim that a permanent video failure of
some but not all shots does not transition the job to Failed. -/
theorem C1_counterexample :
    (alarmStep c1poll c1result c1st 0).1.status = JobStatus.failed ∧
    (alarmStep c1poll c1result c1st 0).1.status ≠ JobStatus.videos_complete ∧
    (alarmStep c1poll c1result c1st 0).1.error =
      some "One or more videos failed to generate" ∧
    ((alarmStep c1poll c1result c1st 0).1.scenes.getD 0 defaultSceneJob).status =
      SceneStatus.complete := by
  refine ⟨?_, ?_, ?_, ?_⟩ <;> with_unfolding_all decide

/-- C1 witness: the amended theorem applied to a job whose shots are already
terminal (one complete, one failed): the tick moves it to videos complete and
continues with compilation. -/
theorem C1_witness :
    alarmStep c1poll c1result c1wst 0 =
      ({ updateProgress { c1wst with scenes := (pollScenes c1poll c1result c1wst.scenes).1 } with
          status := JobStatus.videos_complete },
        1, (pollScenes c1poll c1result c1wst.scenes).2.2.2, AlarmAction.compile) := by
  have H := C1_video_poll_failure c1poll c1result c1wst 0 (by decide) (by decide)
  have hflags := H.2.2 (by decide)
  exact H.2.1 hflags.1 hflags.2

/-- C6 (amended): once the incremented poll counter exceeds MAX_POLL_ATTEMPTS
(40), the job transitions to Failed with the message Video generation timed
out (not Timeout in GeneratingVideos), before issuing any external call; every
later tick on the failed job returns immediately with no external calls. -/
theorem C6_poll_timeout (poll : String → FalStatus) (result : String → String)
    (st : VideoJobState) (attempts : Nat)
    (hterm : ¬(st.status = JobStatus.complete ∨ st.status = JobStatus.failed))
    (hatt : MAX_POLL_ATTEMPTS ≤ attempts)
    (hnon : ∃ s ∈ st.scenes, s.status ≠ SceneStatus.complete ∧ s.status ≠ SceneStatus.failed) :
    alarmStep poll result st attempts =
      ({ st with
          status := JobStatus.failed,
          error := some "Video generation timed out" }, attempts + 1, 0, AlarmAction.halt) ∧
    (∀ st2 a2, st2.status = JobStatus.failed →
      alarmStep poll result st2 a2 = (st2, a2, 0, AlarmAction.halt)) := by
  constructor
  · simp only [alarmStep]
    rw [if_neg hterm, if_pos (show attempts + 1 > MAX_POLL_ATTEMPTS by omega)]
  · intro st2 a2 h2
    simp only [alarmStep]
    rw [if_pos (Or.inr h2)]

/-- C6 counterexample: at the forty-first tick the job fails, but its message
is Video generation timed out, not the Timeout in GeneratingVideos the claim
states. -/
theorem C6_counterexample :
    (alarmStep c1poll c1result c6st 40).1.status = JobStatus.failed ∧
    (alarmStep c1poll c1result c6st 40).1.error = some "Video generation timed out" ∧
    (alarmStep c1poll c1result c6st 40).1.error ≠ some "Timeout in GeneratingVideos" ∧
    (alarmStep c1poll c1result c6st 40).2.2.1 = 0 := by
  refine ⟨?_, ?_, ?_, ?_⟩ <;> decide

/-- C6 witness: the amended theorem applied at the concrete timed-out job. -/
theorem C6_witness :
    alarmStep c1poll c1result c6st 40 =
      ({ c6st with
          status := JobStatus.failed,
          error := some "Video generation timed out" }, 41, 0, AlarmAction.halt) :=
  (C6_poll_timeout c1poll c1result c6st 40 (by decide) (by decide)
    ⟨pollingScene 1 "r1", by decide, by decide, by decide⟩).1

/-! ### C2: the image generation phase -/

/-- C2 (amended): any error while generating one shot's images transitions the
whole job to Failed with that error's message — there is no per-shot failure
containment and no partial-success continuation in the image phase; the video
phase is entered (flag true) exactly when every shot got both images and the
job is marked images_complete.  In particular an error on the very first
prompt leaves every later shot untouched. -/
theorem C2_image_error_fails_job (gen : String → Except String String)
    (scenes : List Scene) (st : VideoJobState) :
    (∀ st2 b, generateImages gen scenes st = (st2, b) →
      ((b = true → st2.status = JobStatus.images_complete) ∧
       (b = false → st2.status = JobStatus.failed ∧ st2.error ≠ none))) ∧
    (∀ scene rest e, hasScene scene.id st.scenes = true →
      gen scene.startPrompt = .error e →
      generateImages gen (scene :: rest) st =
        ({ updateProgress { st with scenes := (updateFirstScene scene.id
              (fun s => { s with status := SceneStatus.generating_start_image })
              st.scenes) } with
            status := JobStatus.failed, error := some e }, false)) := by
  constructor
  · intro st2 b h
    unfold generateImages at h
    split at h
    · injection h with h1 h2
      subst h1
      subst h2
      exact ⟨fun _ => rfl, fun hb => by cases hb⟩
    · rename_i e st1 heq
      injection h with h1 h2
      subst h1
      subst h2
      constructor
      · intro hb; exact absurd hb (by simp)
      · intro _; exact ⟨rfl, by simp⟩
  · intro scene rest e hhas hgen
    unfold generateImages
    have hloop : generateImagesLoop gen (scene :: rest) st =
        .error (e, updateProgress { st with scenes := (updateFirstScene scene.id
          (fun s => { s with status := SceneStatus.generating_start_image })
          st.scenes) }) := by
      show (match processSceneImages gen scene st with
        | Except.error e2 => Except.error e2
        | Except.ok st1 => generateImagesLoop gen rest st1) = _
      simp only [processSceneImages, hhas, if_true, hgen]
    rw [hloop]

/-- C2 counterexample: a permanent image error on the first shot fails the
whole job with that message; the failing shot is not marked Failed (it stays
generating_start_image) and the second shot is never processed (it stays
pending) — refuting per-shot containment and continuation. -/
theorem C2_counterexample :
    (generateImages c2gen [c2plan1, c2plan2] c2st).1.status = JobStatus.failed ∧
    (generateImages c2gen [c2plan1, c2plan2] c2st).2 = false ∧
    (generateImages c2gen [c2plan1, c2plan2] c2st).1.error = some "Image API error 400" ∧
    ((generateImages c2gen [c2plan1, c2plan2] c2st).1.scenes.getD 0 defaultSceneJob).status =
      SceneStatus.generating_start_image ∧
    ((generateImages c2gen [c2plan1, c2plan2] c2st).1.scenes.getD 1 defaultSceneJob).status =
      SceneStatus.pending := by
  refine ⟨?_, ?_, ?_, ?_, ?_⟩ <;> with_unfolding_all decide

/-- C2 witness: the amended theorem applied at the concrete failing oracle. -/
theorem C2_witness :
    generateImages c2gen (c2plan1 :: [c2plan2]) c2st =
      ({ updateProgress { c2st with scenes := (updateFirstScene c2plan1.id
            (fun s => { s with status := SceneStatus.generating_start_image })
            c2st.scenes) } with
          status := JobStatus.failed, error := some "Image API error 400" }, false) :=
  (C2_image_error_fails_job c2gen (c2plan1 :: [c2plan2]) c2st).2 c2plan1 [c2plan2]
    "Image API error 400" (by decide) (by simp [c2gen, c2plan1])

/-! ### C5: compilation is never skipped -/

theorem pollRenderLoop_const_succeed (rpoll : Nat → RenderResp) (u : String)
    (hu : u.isEmpty = false)
    (hrp : ∀ n, rpoll n = ⟨RenderStatus.succeeded, some u, none⟩) :
    ∀ fuel attempt, pollRenderLoop rpoll attempt (fuel + 1) = .ok u := by
  intro fuel attempt
  show (let r := rpoll attempt;
    if r.status = RenderStatus.succeeded ∧ truthy r.url then .ok (r.url.getD "")
    else if r.status = RenderStatus.failed then
      .error (orDefault r.error_message "Render failed")
    else pollRenderLoop rpoll (attempt + 1) fuel) = _
  rw [hrp attempt]
  rw [if_pos ⟨rfl, by simp [truthy, hu]⟩]
  rfl

/-- C5 (amended): the orchestrator has no compile-skip path: compileVideo
always marks the job compiling and submits a Creatomate render (there is no
compile provider switch); with no truthy video urls it fails with No videos to
compile, and when the render succeeds with a truthy url the job reaches
Complete with finalVideoUrl set to that url (not unset) and progress 100. -/
theorem C5_compile_not_skipped (submit : List String → Except String String)
    (rpoll : Nat → RenderResp) (st : VideoJobState) (u rid : String) :
    (gatherVideoUrls st.scenes = [] →
      compileVideo submit rpoll st =
        { st with status := JobStatus.failed, error := some "No videos to compile" }) ∧
    (gatherVideoUrls st.scenes ≠ [] →
      submit (gatherVideoUrls st.scenes) = .ok rid →
      (∀ n, rpoll n = ⟨RenderStatus.succeeded, some u, none⟩) →
      u.isEmpty = false →
      compileVideo submit rpoll st =
        { st with
          status := JobStatus.complete
          finalVideoUrl := some u
          progress := 100 }) := by
  constructor
  · intro h
    simp only [compileVideo]
    rw [if_pos (by rw [show gatherVideoUrls st.scenes = [] from h]; rfl)]
  · intro hne hsub hrp hu
    simp only [compileVideo]
    have hemp : (gatherVideoUrls st.scenes).isEmpty = false := by
      cases hU : gatherVideoUrls st.scenes with
      | nil => exact absurd hU hne
      | cons a l => rfl
    rw [if_neg (by simp [hemp]), hsub]
    have hloop : pollRenderLoop rpoll 0 MAX_RENDER_ATTEMPTS = .ok u :=
      pollRenderLoop_const_succeed rpoll u hu hrp 59 0
    rw [hloop]

/-- C5 counterexample: after all videos complete, the alarm does not jump to
Complete — it moves to videos_complete and falls through to compilation, and
the compiled job ends Complete with finalVideoUrl set, refuting the claim that
the job transitions directly to Complete with the final artifact url unset. -/
theorem C5_counterexample :
    (alarmStep c5poll c5result c5st 0).2.2.2 = AlarmAction.compile ∧
    (alarmStep c5poll c5result c5st 0).1.status = JobStatus.videos_complete ∧
    (compileVideo c5submit c5rpoll (alarmStep c5poll c5result c5st 0).1).status =
      JobStatus.complete ∧
    (compileVideo c5submit c5rpoll (alarmStep c5poll c5result c5st 0).1).finalVideoUrl =
      some "finalurl" := by
  refine ⟨?_, ?_, ?_, ?_⟩ <;> with_unfolding_all decide

/-- C5 witness: the amended theorem applied at a concrete finished video
phase. -/
theorem C5_witness :
    compileVideo c5submit c5rpoll c5wst =
      { c5wst with
        status := JobStatus.complete
        finalVideoUrl := some "finalurl"
        progress := 100 } :=
  (C5_compile_not_skipped c5submit c5rpoll c5wst "finalurl" "render1").2
    (by decide) rfl (fun _ => rfl) (by decide)

/-! ### C7: progress bounds and monotonicity -/

theorem sceneSteps_le_3 (s : SceneJobState) : sceneSteps s ≤ 3 := by
  unfold sceneSteps
  split_ifs <;> omega

theorem completedSteps_le (scenes : List SceneJobState) :
    completedSteps scenes ≤ scenes.length * 3 := by
  induction scenes with
  | nil => simp [completedSteps]
  | cons s rest ih =>
    have hs := sceneSteps_le_3 s
    show sceneSteps s + completedSteps rest ≤ (rest.length + 1) * 3
    omega

theorem jsRound_frac_nonneg (c t : Nat) :
    0 ≤ jsRound ((c : ℚ) / (t : ℚ) * 100) := by
  apply jsRound_nonneg
  positivity

theorem jsRound_frac_le_100 {c t : Nat} (hct : c ≤ t) (ht : 0 < t) :
    jsRound ((c : ℚ) / (t : ℚ) * 100) ≤ 100 := by
  apply jsRound_le_100
  have ht' : (0 : ℚ) < (t : ℚ) := by exact_mod_cast ht
  have hct' : (c : ℚ) ≤ (t : ℚ) := by exact_mod_cast hct
  rw [div_mul_eq_mul_div, div_le_iff₀ ht']
  nlinarith

theorem jsRound_frac_mono {c c2 t : Nat} (h : c ≤ c2) :
    jsRound ((c : ℚ) / (t : ℚ) * 100) ≤ jsRound ((c2 : ℚ) / (t : ℚ) * 100) := by
  apply jsRound_mono
  have hc : (c : ℚ) ≤ (c2 : ℚ) := by exact_mod_cast h
  have ht : (0 : ℚ) ≤ (t : ℚ) := by positivity
  gcongr

theorem jsRound_frac_total {t : Nat} (ht : 0 < t) :
    jsRound ((t : ℚ) / (t : ℚ) * 100) = 100 := by
  have ht' : ((t : ℚ)) ≠ 0 := by
    have : (0 : ℚ) < (t : ℚ) := by exact_mod_cast ht
    linarith
  rw [div_self ht', one_mul]
  rw [show (100 : ℚ) = ((100 : ℤ) : ℚ) by norm_num]
  exact jsRound_intCast 100

theorem updateProgress_progress (s : VideoJobState) :
    (updateProgress s).progress =
      jsRound (((if s.status = JobStatus.complete then s.scenes.length * 3 + 1
        else completedSteps s.scenes : Nat) : ℚ) /
        ((s.scenes.length * 3 + 1 : Nat) : ℚ) * 100) := rfl

/-- C7 (amended): the recomputed progress is an integer between 0 and 100; a
Complete status forces progress 100; and progress is monotone as per-scene
completion steps accrue (and a Complete status is never retracted) — but 100
does not imply Complete: with enough scenes the rounding reaches 100 while the
job is still compiling. -/
theorem C7_progress_bounds_mono (st st2 : VideoJobState) :
    (0 ≤ (updateProgress st).progress ∧ (updateProgress st).progress ≤ 100) ∧
    (st.status = JobStatus.complete → (updateProgress st).progress = 100) ∧
    (st.scenes.length = st2.scenes.length →
      completedSteps st.scenes ≤ completedSteps st2.scenes →
      (st.status = JobStatus.complete → st2.status = JobStatus.complete) →
      (updateProgress st).progress ≤ (updateProgress st2).progress) := by
  have hle : ∀ s : VideoJobState,
      (if s.status = JobStatus.complete then s.scenes.length * 3 + 1
        else completedSteps s.scenes) ≤ s.scenes.length * 3 + 1 := by
    intro s
    split
    · omega
    · have := completedSteps_le s.scenes
      omega
  refine ⟨?_, ?_, ?_⟩
  · rw [updateProgress_progress]
    exact ⟨jsRound_frac_nonneg _ _, jsRound_frac_le_100 (hle st) (by omega)⟩
  · intro hc
    rw [updateProgress_progress, if_pos hc]
    exact jsRound_frac_total (by omega)
  · intro hlen hsteps hcomp
    rw [updateProgress_progress, updateProgress_progress, ← hlen]
    apply jsRound_frac_mono
    by_cases hc : st.status = JobStatus.complete
    · rw [if_pos hc, if_pos (hcomp hc), hlen]
    · rw [if_neg hc]
      split
      · have := completedSteps_le st2.scenes
        rw [← hlen] at this
        omega
      · exact hsteps

/-- C7 counterexample: with 67 scenes whose three per-scene steps are all
done, the completed fraction 201 of 202 rounds to 100 although the job is
still Compiling — refuting progress equals 100 iff phase is Complete. -/
theorem C7_counterexample :
    (updateProgress c7st).progress = 100 ∧ c7st.status ≠ JobStatus.complete := by
  constructor
  · with_unfolding_all decide
  · decide

/-- C7 witness: bounds and monotonicity applied at two concrete states. -/
theorem C7_witness :
    (updateProgress c7stSmall).progress ≤ (updateProgress c7stSmall2).progress ∧
    0 ≤ (updateProgress c7stSmall).progress := by
  have H := C7_progress_bounds_mono c7stSmall c7stSmall2
  exact ⟨H.2.2 (by decide) (by decide) (by decide), H.1.1⟩

/-! ### C9: owner isolation on the job-status route -/

theorem string_data_append (x y : String) : (x ++ y).data = x.data ++ y.data := by
  cases x
  cases y
  rfl

theorem takeWhile_append_colon (a r : List Char)
    (ha : ∀ c ∈ a, (c != ':') = true) :
    (a ++ ':' :: r).takeWhile (fun c => c != ':') = a := by
  induction a with
  | nil => simp [List.takeWhile]
  | cons c a' ih =>
    have hc := ha c (List.mem_cons_self c a')
    show ((c :: (a' ++ ':' :: r)).takeWhile (fun c => c != ':')) = c :: a'
    rw [List.takeWhile_cons, if_pos hc]
    rw [ih (fun d hd => ha d (List.mem_cons_of_mem c hd))]

theorem dropWhile_append_colon (a r : List Char)
    (ha : ∀ c ∈ a, (c != ':') = true) :
    (a ++ ':' :: r).dropWhile (fun c => c != ':') = ':' :: r := by
  induction a with
  | nil => simp [List.dropWhile]
  | cons c a' ih =>
    have hc := ha c (List.mem_cons_self c a')
    show ((c :: (a' ++ ':' :: r)).dropWhile (fun c => c != ':')) = ':' :: r
    rw [List.dropWhile_cons, if_pos hc]
    exact ih (fun d hd => ha d (List.mem_cons_of_mem c hd))

theorem colon_seg_inj {s1 s2 p1 p2 : List Char}
    (hs1 : ∀ c ∈ s1, (c != ':') = true) (hs2 : ∀ c ∈ s2, (c != ':') = true)
    (h : s1 ++ ':' :: p1 = s2 ++ ':' :: p2) : s1 = s2 ∧ p1 = p2 := by
  have htake := congrArg (List.takeWhile (fun c => c != ':')) h
  rw [takeWhile_append_colon s1 p1 hs1, takeWhile_append_colon s2 p2 hs2] at htake
  have hdrop := congrArg (List.dropWhile (fun c => c != ':')) h
  rw [dropWhile_append_colon s1 p1 hs1, dropWhile_append_colon s2 p2 hs2] at hdrop
  exact ⟨htake, by injection hdrop⟩

theorem jobKey_data (o j : String) :
    (jobKey o j).data.reverse =
      j.data.reverse ++ ':' :: ([ 'b', 'o', 'j', ':' ] ++
        (o.data.reverse ++ [ ':', 'r', 'e', 's', 'u' ])) := by
  show ((("user:" ++ o) ++ ":job:") ++ j).data.reverse = _
  rw [string_data_append, string_data_append, string_data_append]
  simp [List.reverse_append]

theorem jobKey_inj {o1 j1 o2 j2 : String}
    (hj1 : ∀ c ∈ j1.data, (c != ':') = true)
    (hj2 : ∀ c ∈ j2.data, (c != ':') = true)
    (h : jobKey o1 j1 = jobKey o2 j2) : o1 = o2 ∧ j1 = j2 := by
  have hd : (jobKey o1 j1).data.reverse = (jobKey o2 j2).data.reverse := by rw [h]
  rw [jobKey_data, jobKey_data] at hd
  have hseg := colon_seg_inj
    (fun c hc => hj1 c (List.mem_reverse.mp hc))
    (fun c hc => hj2 c (List.mem_reverse.mp hc)) hd
  have hjeq : j1 = j2 := by
    have := congrArg List.reverse hseg.1
    rw [List.reverse_reverse, List.reverse_reverse] at this
    cases j1
    cases j2
    exact congrArg String.mk (by simpa using this)
  have hrest := hseg.2
  have ho : o1.data.reverse = o2.data.reverse := by
    have h4 := List.append_cancel_left hrest
    exact List.append_cancel_right h4
  have hoeq : o1 = o2 := by
    have := congrArg List.reverse ho
    rw [List.reverse_reverse, List.reverse_reverse] at this
    cases o1
    cases o2
    exact congrArg String.mk (by simpa using this)
  exact ⟨hoeq, hjeq⟩

/-- C9: owner isolation on GET /api/jobs/id: when every cache entry is a job
key namespaced by its owner, job ids are colon-free, and every entry for job
j belongs to owner B, a request authenticated as a different owner A answers
404 Job not found and never dereferences the job state. -/
theorem C9_owner_isolation (cache : String → Option String) (A B j : String)
    (hAB : A ≠ B) (hj : ∀ c ∈ j.data, (c != ':') = true)
    (hcache : ∀ k, cache k ≠ none →
      ∃ o j2, (∀ c ∈ j2.data, (c != ':') = true) ∧ k = jobKey o j2 ∧
        (j2 = j → o = B)) :
    handleGetJob cache A j = GetJobResult.notFound := by
  unfold handleGetJob
  cases hk : cache (jobKey A j) with
  | none => rfl
  | some v =>
    exfalso
    obtain ⟨o, j2, hj2, hkey, himp⟩ := hcache (jobKey A j) (by rw [hk]; simp)
    obtain ⟨ho, hjj⟩ := jobKey_inj hj hj2 hkey
    exact hAB (ho.trans (himp hjj.symm))

/-- C9 witness: the theorem applied at a concrete cache holding only the job
of owner bob; a request by alice for that job id answers 404. -/
theorem C9_witness : handleGetJob c9cache "alice" "job9" = GetJobResult.notFound := by
  apply C9_owner_isolation c9cache "alice" "bob" "job9" (by decide) (by decide)
  intro k hk
  have hkk : k = jobKey "bob" "job9" := by
    by_contra hne
    exact hk (by simp [c9cache, hne])
  exact ⟨"bob", "job9", by decide, hkk, fun _ => rfl⟩

end PromptToVideo
